import Mathlib

/-!
# Verification of the MirrorAPI diff/scoring core

Shallow embedding of `src/lib/score.ts` (risk scorer) and, modelled from the
specification (the diff engine source `src/lib/diff.ts` is not present in the
repository snapshot, only its callers), the schema diff engine.

JavaScript `number` arithmetic on the accumulated integer weights is exact, so
the accumulator is embedded as `ℕ`; the normalization formula
`100 * (1 - Math.exp(-total / 50))` is embedded over `ℝ` with `Real.exp`, and
`Math.round` as `fun x => ⌊x + 1/2⌋` (round half up).
-/

namespace MirrorAPI

/-- Runtime shape of one diff entry as the scorer sees it: a record carrying a
`kind` discriminator string plus the path and type fields.  The scorer's
`switch` statement dispatches on the `kind` string and reads `oldType` /
`newType` only in the `TYPE_CHANGED` arm, so fields not applicable to a kind
are simply never read (they are `""` in reports built by the diff engine). -/
structure Change where
  kind : String
  path : String
  oldType : String
  newType : String
  deriving DecidableEq, Repr

/-- Structure `Summary \x7b added, removed, risky \x7d` from the spec's data model. -/
structure Summary where
  added : Nat
  removed : Nat
  risky : Nat
  deriving DecidableEq, Repr

/-- Report type `DiffReport`: ordered change list plus summary counts. -/
structure DiffReport where
  changes : List Change
  summary : Summary
  deriving DecidableEq, Repr

/-- Predicate `areTypesCompatible` from `src/lib/score.ts`: true when either side is
`"null"`, or the pair is string/number in either order, or the two type labels
are identical. -/
def areTypesCompatible (oldType newType : String) : Bool :=
  if oldType = "null" ∨ newType = "null" then
    true
  else if (oldType = "string" ∧ newType = "number") ∨
      (oldType = "number" ∧ newType = "string") then
    true
  else
    oldType = newType

/-- Points contributed by one change: the body of the `for`/`switch` loop in
`scoreDiff` (`src/lib/score.ts`), with the `SCORING_WEIGHTS` constants inlined.
A `kind` matching none of the three cases falls through the `switch` and
contributes nothing. -/
def changePoints (c : Change) : Nat :=
  if c.kind = "REMOVED_FIELD" then
    40
  else if c.kind = "TYPE_CHANGED" then
    if (c.oldType = "object" ∨ c.oldType = "array") ∨
        (c.newType = "object" ∨ c.newType = "array") then
      35
    else if areTypesCompatible c.oldType c.newType then
      15
    else
      25
  else if c.kind = "ADDED_FIELD" then
    5
  else
    0

/-- The accumulated `totalScore` after the loop. -/
def totalScore (r : DiffReport) : Nat :=
  (r.changes.map changePoints).sum

/-- Normalization and rounding applied to a raw point total `t`:
`Math.round(Math.max(0, Math.min(100, 100 * (1 - Math.exp (-t / 50)))))`. -/
noncomputable def scoreVal (t : ℝ) : ℤ :=
  ⌊max 0 (min 100 (100 * (1 - Real.exp (-t / 50)))) + 1 / 2⌋

/-- Function `scoreDiff` from `src/lib/score.ts`: `0` for an empty change list,
otherwise the clamped, rounded exponential normalization of the accumulated
severity points. -/
noncomputable def scoreDiff (r : DiffReport) : ℤ :=
  if r.changes.length = 0 then 0
  else scoreVal (totalScore r)

/-! ## Basic facts about the normalization -/

lemma exp_le_one_of_nonneg {t : ℝ} (ht : 0 ≤ t) : Real.exp (-t / 50) ≤ 1 := by
  rw [Real.exp_le_one_iff]
  nlinarith

/-- For a nonnegative point total the clamp is the identity: the normalized
value already lies in `[0, 100)`. -/
lemma clamp_eq {t : ℝ} (ht : 0 ≤ t) :
    max 0 (min 100 (100 * (1 - Real.exp (-t / 50))))
      = 100 * (1 - Real.exp (-t / 50)) := by
  have h1 : Real.exp (-t / 50) ≤ 1 := exp_le_one_of_nonneg ht
  have h2 : 0 < Real.exp (-t / 50) := Real.exp_pos _
  rw [min_eq_right (by nlinarith), max_eq_right (by nlinarith)]

lemma scoreVal_nonneg (t : ℝ) : 0 ≤ scoreVal t := by
  unfold scoreVal
  rw [Int.le_floor]
  have : (0 : ℝ) ≤ max 0 (min 100 (100 * (1 - Real.exp (-t / 50)))) :=
    le_max_left _ _
  push_cast
  linarith

lemma scoreVal_le_100 (t : ℝ) : scoreVal t ≤ 100 := by
  unfold scoreVal
  have h : max 0 (min 100 (100 * (1 - Real.exp (-t / 50)))) ≤ 100 := by
    apply max_le (by norm_num)
    exact min_le_left _ _
  have h2 : ⌊max 0 (min 100 (100 * (1 - Real.exp (-t / 50)))) + 1 / 2⌋
      ≤ ⌊(100 + 1 / 2 : ℝ)⌋ := Int.floor_le_floor (by linarith)
  have h3 : ⌊(100 + 1 / 2 : ℝ)⌋ = 100 := by
    rw [Int.floor_eq_iff]
    norm_num
  omega

/-- The normalized score is monotone in the raw point total. -/
lemma scoreVal_mono {t₁ t₂ : ℝ} (h : t₁ ≤ t₂) : scoreVal t₁ ≤ scoreVal t₂ := by
  unfold scoreVal
  apply Int.floor_le_floor
  have hexp : Real.exp (-t₂ / 50) ≤ Real.exp (-t₁ / 50) := by
    apply Real.exp_le_exp.mpr
    linarith
  have hv : 100 * (1 - Real.exp (-t₁ / 50)) ≤ 100 * (1 - Real.exp (-t₂ / 50)) := by
    nlinarith
  have := max_le_max (le_refl (0 : ℝ)) (min_le_min (le_refl (100 : ℝ)) hv)
  linarith

/-! ## Rational bounds on the exponentials the scorer produces

Five-term Taylor expansions of `exp` at the arguments that arise from the
weight table, with Mathlib's remainder bound. -/

lemma taylor5_le_exp {x : ℝ} (hx : 0 ≤ x) :
    1 + x + x ^ 2 / 2 + x ^ 3 / 6 + x ^ 4 / 24 ≤ Real.exp x := by
  have h := Real.sum_le_exp_of_nonneg hx 5
  rw [Finset.sum_range_succ, Finset.sum_range_succ, Finset.sum_range_succ,
    Finset.sum_range_succ, Finset.sum_range_succ, Finset.sum_range_zero] at h
  norm_num [Nat.factorial] at h
  linarith

lemma exp_le_taylor5 {x : ℝ} (hx0 : 0 ≤ x) (hx1 : x ≤ 1) :
    Real.exp x ≤ 1 + x + x ^ 2 / 2 + x ^ 3 / 6 + x ^ 4 / 24 + x ^ 5 / 100 := by
  have h := Real.exp_bound' hx0 hx1 (n := 5) (by norm_num)
  rw [Finset.sum_range_succ, Finset.sum_range_succ, Finset.sum_range_succ,
    Finset.sum_range_succ, Finset.sum_range_succ, Finset.sum_range_zero] at h
  norm_num [Nat.factorial] at h
  linarith

lemma exp_01_lb : (1.105170 : ℝ) ≤ Real.exp (1 / 10) := by
  have h := taylor5_le_exp (x := 1 / 10) (by norm_num)
  norm_num at h ⊢
  linarith

lemma exp_01_ub : Real.exp (1 / 10) ≤ (1.105171 : ℝ) := by
  have h := exp_le_taylor5 (x := 1 / 10) (by norm_num) (by norm_num)
  norm_num at h ⊢
  linarith

lemma exp_03_lb : (1.349837 : ℝ) ≤ Real.exp (3 / 10) := by
  have h := taylor5_le_exp (x := 3 / 10) (by norm_num)
  norm_num at h ⊢
  linarith

lemma exp_03_ub : Real.exp (3 / 10) ≤ (1.349862 : ℝ) := by
  have h := exp_le_taylor5 (x := 3 / 10) (by norm_num) (by norm_num)
  norm_num at h ⊢
  linarith

lemma exp_05_lb : (1.648437 : ℝ) ≤ Real.exp (1 / 2) := by
  have h := taylor5_le_exp (x := 1 / 2) (by norm_num)
  norm_num at h ⊢
  linarith

lemma exp_05_ub : Real.exp (1 / 2) ≤ (1.648750 : ℝ) := by
  have h := exp_le_taylor5 (x := 1 / 2) (by norm_num) (by norm_num)
  norm_num at h ⊢
  linarith

lemma exp_07_lb : (2.012170 : ℝ) ≤ Real.exp (7 / 10) := by
  have h := taylor5_le_exp (x := 7 / 10) (by norm_num)
  norm_num at h ⊢
  linarith

lemma exp_07_ub : Real.exp (7 / 10) ≤ (2.013852 : ℝ) := by
  have h := exp_le_taylor5 (x := 7 / 10) (by norm_num) (by norm_num)
  norm_num at h ⊢
  linarith

lemma exp_08_lb : (2.2224 : ℝ) ≤ Real.exp (4 / 5) := by
  have h := taylor5_le_exp (x := 4 / 5) (by norm_num)
  norm_num at h ⊢
  linarith

lemma exp_08_ub : Real.exp (4 / 5) ≤ (2.225677 : ℝ) := by
  have h := exp_le_taylor5 (x := 4 / 5) (by norm_num) (by norm_num)
  norm_num at h ⊢
  linarith

/-- Pinning down `scoreVal t = k` from two-sided rational bounds on
`exp (t / 50)`: the rounded value equals `k` exactly when
`(199 - 2k) * exp (t/50) < 200 ≤ (201 - 2k) * exp (t/50)`. -/
lemma scoreVal_eq_of_exp_bounds {t : ℝ} (k : ℤ) (ht : 0 ≤ t)
    (h1 : (199 - 2 * (k : ℝ)) * Real.exp (t / 50) < 200)
    (h2 : 200 ≤ (201 - 2 * (k : ℝ)) * Real.exp (t / 50)) :
    scoreVal t = k := by
  have hE : 0 < Real.exp (t / 50) := Real.exp_pos _
  have hEi : 0 < (Real.exp (t / 50))⁻¹ := inv_pos.mpr hE
  have hmul : Real.exp (t / 50) * (Real.exp (t / 50))⁻¹ = 1 :=
    mul_inv_cancel₀ (ne_of_gt hE)
  have hneg : Real.exp (-t / 50) = (Real.exp (t / 50))⁻¹ := by
    rw [neg_div, Real.exp_neg]
  unfold scoreVal
  rw [clamp_eq ht, hneg, Int.floor_eq_iff]
  constructor
  · nlinarith [mul_le_mul_of_nonneg_right h2 (le_of_lt hEi)]
  · nlinarith [mul_le_mul_of_nonneg_right (le_of_lt h1) (le_of_lt hEi)]

lemma scoreVal_5 : scoreVal 5 = 10 := by
  have hu := exp_01_ub
  have hl := exp_01_lb
  apply scoreVal_eq_of_exp_bounds 10 (by norm_num)
  · rw [show (5 : ℝ) / 50 = 1 / 10 by norm_num]
    push_cast
    nlinarith
  · rw [show (5 : ℝ) / 50 = 1 / 10 by norm_num]
    push_cast
    nlinarith

lemma scoreVal_15 : scoreVal 15 = 26 := by
  have hu := exp_03_ub
  have hl := exp_03_lb
  apply scoreVal_eq_of_exp_bounds 26 (by norm_num)
  · rw [show (15 : ℝ) / 50 = 3 / 10 by norm_num]
    push_cast
    nlinarith
  · rw [show (15 : ℝ) / 50 = 3 / 10 by norm_num]
    push_cast
    nlinarith

lemma scoreVal_25 : scoreVal 25 = 39 := by
  have hu := exp_05_ub
  have hl := exp_05_lb
  apply scoreVal_eq_of_exp_bounds 39 (by norm_num)
  · rw [show (25 : ℝ) / 50 = 1 / 2 by norm_num]
    push_cast
    nlinarith
  · rw [show (25 : ℝ) / 50 = 1 / 2 by norm_num]
    push_cast
    nlinarith

lemma scoreVal_35 : scoreVal 35 = 50 := by
  have hu := exp_07_ub
  have hl := exp_07_lb
  apply scoreVal_eq_of_exp_bounds 50 (by norm_num)
  · rw [show (35 : ℝ) / 50 = 7 / 10 by norm_num]
    push_cast
    nlinarith
  · rw [show (35 : ℝ) / 50 = 7 / 10 by norm_num]
    push_cast
    nlinarith

lemma scoreVal_40 : scoreVal 40 = 55 := by
  have hu := exp_08_ub
  have hl := exp_08_lb
  apply scoreVal_eq_of_exp_bounds 55 (by norm_num)
  · rw [show (40 : ℝ) / 50 = 4 / 5 by norm_num]
    push_cast
    nlinarith
  · rw [show (40 : ℝ) / 50 = 4 / 5 by norm_num]
    push_cast
    nlinarith

/-- The rounded score stays below `100` exactly while `exp (t/50) < 200`. -/
lemma scoreVal_lt_100_of_exp_lt {t : ℝ} (ht : 0 ≤ t)
    (h : Real.exp (t / 50) < 200) : scoreVal t < 100 := by
  have hE : 0 < Real.exp (t / 50) := Real.exp_pos _
  have hEi : 0 < (Real.exp (t / 50))⁻¹ := inv_pos.mpr hE
  have hmul : Real.exp (t / 50) * (Real.exp (t / 50))⁻¹ = 1 :=
    mul_inv_cancel₀ (ne_of_gt hE)
  have hneg : Real.exp (-t / 50) = (Real.exp (t / 50))⁻¹ := by
    rw [neg_div, Real.exp_neg]
  unfold scoreVal
  rw [clamp_eq ht, hneg, Int.floor_lt]
  push_cast
  nlinarith [mul_le_mul_of_nonneg_right (le_of_lt h) (le_of_lt hEi)]

/-- Once `exp (t/50)` reaches `200`, rounding pushes the score to exactly
`100`. -/
lemma scoreVal_eq_100_of_exp_ge {t : ℝ} (ht : 0 ≤ t)
    (h : 200 ≤ Real.exp (t / 50)) : scoreVal t = 100 := by
  have hE : 0 < Real.exp (t / 50) := Real.exp_pos _
  apply scoreVal_eq_of_exp_bounds 100 ht
  · push_cast
    nlinarith
  · push_cast
    nlinarith

lemma scoreDiff_of_ne_nil {r : DiffReport} (h : r.changes ≠ []) :
    scoreDiff r = scoreVal (totalScore r) := by
  unfold scoreDiff
  rw [if_neg]
  simpa using h

lemma scoreDiff_of_nil {r : DiffReport} (h : r.changes = []) :
    scoreDiff r = 0 := by
  unfold scoreDiff
  rw [if_pos]
  simp [h]

/-- A report whose changes are all `REMOVED_FIELD` accumulates `40` points per
change. -/
lemma totalScore_all_removed {l : List Change}
    (h : ∀ c ∈ l, c.kind = "REMOVED_FIELD") :
    (l.map changePoints).sum = 40 * l.length := by
  induction l with
  | nil => simp
  | cons c rest ih =>
      have hc : c.kind = "REMOVED_FIELD" := h c (List.mem_cons_self c rest)
      have hrest := ih (fun d hd => h d (List.mem_cons_of_mem c hd))
      simp [changePoints, hc, hrest]
      ring

lemma exp_08_ge_one : (1 : ℝ) ≤ Real.exp (4 / 5) := by
  have := exp_08_lb
  linarith

/-- For `n ≤ 6` removed fields, `exp (40n/50) < 200`. -/
lemma exp_removed_lt {n : ℕ} (h : n ≤ 6) :
    Real.exp ((40 * n : ℕ) / 50 : ℝ) < 200 := by
  have hcast : ((40 * n : ℕ) / 50 : ℝ) = (n : ℝ) * (4 / 5) := by
    push_cast
    ring
  rw [hcast, Real.exp_nat_mul]
  calc Real.exp (4 / 5) ^ n ≤ (2.225677 : ℝ) ^ n := by
        apply pow_le_pow_left₀ (le_of_lt (Real.exp_pos _)) exp_08_ub
    _ ≤ (2.225677 : ℝ) ^ 6 := by
        apply pow_le_pow_right₀ (by norm_num) h
    _ < 200 := by norm_num

/-- For `n ≥ 7` removed fields, `exp (40n/50) ≥ 200`. -/
lemma exp_removed_ge {n : ℕ} (h : 7 ≤ n) :
    (200 : ℝ) ≤ Real.exp ((40 * n : ℕ) / 50 : ℝ) := by
  have hcast : ((40 * n : ℕ) / 50 : ℝ) = (n : ℝ) * (4 / 5) := by
    push_cast
    ring
  rw [hcast, Real.exp_nat_mul]
  calc (200 : ℝ) ≤ (2.2224 : ℝ) ^ 7 := by norm_num
    _ ≤ Real.exp (4 / 5) ^ 7 := by
        apply pow_le_pow_left₀ (by norm_num) exp_08_lb
    _ ≤ Real.exp (4 / 5) ^ n := by
        apply pow_le_pow_right₀ exp_08_ge_one h

/-! ## The spec's reference definition of the scorer (for the refinement
claim), written from the specification text of §4.3, independently of the
source. -/

/-- Modelled from the spec: "two types are compatible if either is `"null"`,
or if the pair is `{"string","number"}` in either order, or if they are
identical". -/
def specTypesCompatible (a b : String) : Bool :=
  decide (a = "null" ∨ b = "null" ∨
    ((a = "string" ∧ b = "number") ∨ (a = "number" ∧ b = "string")) ∨
    a = b)

/-- Modelled from the spec: the §4.3 weight table, row by row.  The spec's
`DiffReport` contains only the three documented kinds, so the final `else`
arm is outside the spec's domain (the refinement theorem is stated under
that domain restriction). -/
def specPoints (c : Change) : Nat :=
  if c.kind = "REMOVED_FIELD" then
    40
  else if c.kind = "TYPE_CHANGED" then
    if c.oldType = "object" ∨ c.oldType = "array" ∨
        c.newType = "object" ∨ c.newType = "array" then
      35
    else if specTypesCompatible c.oldType c.newType then
      15
    else
      25
  else if c.kind = "ADDED_FIELD" then
    5
  else
    0

/-- Modelled from the spec: Step 2 (empty changes score exactly 0) and Step 3
(`round(clamp(100 × (1 − e^(−totalPoints / 50)), 0, 100))`, round half up). -/
noncomputable def specScoreDiff (r : DiffReport) : ℤ :=
  if r.changes = [] then 0
  else
    ⌊max 0 (min 100
        (100 * (1 - Real.exp (-((r.changes.map specPoints).sum : ℝ) / 50))))
      + 1 / 2⌋

lemma compat_eq_specCompat (a b : String) :
    areTypesCompatible a b = specTypesCompatible a b := by
  unfold areTypesCompatible specTypesCompatible
  split_ifs with h1 h2
  · simp only [true_eq_decide_iff, decide_eq_true_eq, eq_comm (a := true)]
    tauto
  · rcases h2 with h2 | h2 <;> simp [h2.1, h2.2]
  · push_neg at h1 h2
    by_cases hab : a = b <;> simp_all

lemma changePoints_eq_specPoints (c : Change)
    (h : c.kind = "REMOVED_FIELD" ∨ c.kind = "TYPE_CHANGED" ∨
      c.kind = "ADDED_FIELD") :
    changePoints c = specPoints c := by
  unfold changePoints specPoints
  rw [compat_eq_specCompat]
  rcases h with h | h | h <;> simp [h, or_assoc]

/-! ## Claim theorems (risk scorer) -/

/-- C1: `scoreDiff` equals the spec's reference definition — exactly 0 on an
empty change list, otherwise `round(clamp(100 × (1 − e^(−totalPoints / 50)),
0, 100))` where `totalPoints` accumulates 40 per removed field, 35 per
structural type change, 15 per compatible non-structural type change, 25 per
incompatible one, and 5 per added field. -/
theorem C1_scoreDiff_refines_spec (r : DiffReport)
    (h : ∀ c ∈ r.changes, c.kind = "REMOVED_FIELD" ∨
      c.kind = "TYPE_CHANGED" ∨ c.kind = "ADDED_FIELD") :
    scoreDiff r = specScoreDiff r := by
  have hmap : r.changes.map changePoints = r.changes.map specPoints :=
    List.map_congr_left (fun c hc => changePoints_eq_specPoints c (h c hc))
  unfold scoreDiff specScoreDiff scoreVal totalScore
  by_cases hnil : r.changes = []
  · simp [hnil]
  · rw [if_neg (by simpa using hnil), if_neg hnil, hmap]

theorem C1_scoreDiff_refines_spec_witness :
    (∀ c ∈ [Change.mk "REMOVED_FIELD" "flag" "boolean" "",
        Change.mk "ADDED_FIELD" "name" "" "string"],
      c.kind = "REMOVED_FIELD" ∨ c.kind = "TYPE_CHANGED" ∨
        c.kind = "ADDED_FIELD") ∧
    scoreDiff
      { changes := [Change.mk "REMOVED_FIELD" "flag" "boolean" "",
          Change.mk "ADDED_FIELD" "name" "" "string"],
        summary := ⟨1, 1, 0⟩ } =
    specScoreDiff
      { changes := [Change.mk "REMOVED_FIELD" "flag" "boolean" "",
          Change.mk "ADDED_FIELD" "name" "" "string"],
        summary := ⟨1, 1, 0⟩ } :=
  ⟨by decide, C1_scoreDiff_refines_spec _ (by decide)⟩

/-- C2: for every report the score is an integer between 0 and 100. -/
theorem C2_score_bounded (r : DiffReport) :
    0 ≤ scoreDiff r ∧ scoreDiff r ≤ 100 := by
  unfold scoreDiff
  split_ifs
  · exact ⟨le_refl 0, by norm_num⟩
  · exact ⟨scoreVal_nonneg _, scoreVal_le_100 _⟩

lemma scoreDiff_single (c : Change) (sm : Summary) :
    scoreDiff ⟨[c], sm⟩ = scoreVal (changePoints c) := by
  unfold scoreDiff totalScore
  simp

/-- C3 counterexample: the single boolean→object `TypeChanged` report scores
50, not 51 — `100 × (1 − e^(−35/50)) ≈ 50.34` rounds down. -/
theorem C3_counterexample :
    scoreDiff ⟨[Change.mk "TYPE_CHANGED" "meta" "boolean" "object"], ⟨0, 0, 1⟩⟩
      ≠ 51 := by
  rw [scoreDiff_single]
  have h : changePoints (Change.mk "TYPE_CHANGED" "meta" "boolean" "object")
      = 35 := by decide
  rw [h, show ((35 : ℕ) : ℝ) = 35 by norm_num]
  have := scoreVal_35
  omega

/-- C3 (amended): a report whose change list is exactly one `TypeChanged`
with oldType `"boolean"` and newType `"object"` (structural, 35 points)
scores `round(100 × (1 − e^(−35/50)))`, which is 50. -/
theorem C3_amended_structural_single_score (p : String) (sm : Summary) :
    scoreDiff ⟨[Change.mk "TYPE_CHANGED" p "boolean" "object"], sm⟩ = 50 ∧
    (50 : ℤ) = ⌊(100 * (1 - Real.exp (-(35 : ℝ) / 50)) : ℝ) + 1 / 2⌋ := by
  constructor
  · rw [scoreDiff_single]
    have h : changePoints (Change.mk "TYPE_CHANGED" p "boolean" "object")
        = 35 := by
      unfold changePoints
      simp
    rw [h]
    exact_mod_cast scoreVal_35
  · have h := scoreVal_35
    unfold scoreVal at h
    rw [clamp_eq (by norm_num : (0 : ℝ) ≤ 35)] at h
    exact_mod_cast h.symm

/-- C4 counterexample: seven `RemovedField` changes give 280 raw points,
`100 × (1 − e^(−5.6)) ≈ 99.63`, which rounds to exactly 100 — the score does
reach 100. -/
theorem C4_counterexample :
    scoreDiff
      ⟨List.replicate 7 (Change.mk "REMOVED_FIELD" "f" "string" ""), ⟨0, 7, 0⟩⟩
      = 100 := by
  have hne : (List.replicate 7 (Change.mk "REMOVED_FIELD" "f" "string" ""))
      ≠ ([] : List Change) := by decide
  rw [scoreDiff_of_ne_nil hne]
  have ht : totalScore
      ⟨List.replicate 7 (Change.mk "REMOVED_FIELD" "f" "string" ""), ⟨0, 7, 0⟩⟩
      = 280 := by decide
  rw [ht]
  apply scoreVal_eq_100_of_exp_ge (by norm_num)
  have h := exp_removed_ge (n := 7) le_rfl
  norm_num at h ⊢
  linarith

/-- C4 (amended): for a report of `n ≥ 1` `RemovedField` changes the score
never exceeds 100 and the pre-rounding value stays below 100, but the rounded
score is strictly below 100 only for `n ≤ 6`; from `n = 7` on, rounding makes
the returned score exactly 100. -/
theorem C4_amended_removed_growth (l : List Change) (sm : Summary)
    (hne : l ≠ []) (hall : ∀ c ∈ l, c.kind = "REMOVED_FIELD") :
    scoreDiff ⟨l, sm⟩ ≤ 100 ∧
    (l.length ≤ 6 → scoreDiff ⟨l, sm⟩ < 100) ∧
    (7 ≤ l.length → scoreDiff ⟨l, sm⟩ = 100) ∧
    100 * (1 - Real.exp (-((totalScore ⟨l, sm⟩ : ℝ)) / 50)) < 100 := by
  have hts : totalScore ⟨l, sm⟩ = 40 * l.length := totalScore_all_removed hall
  have hsd : scoreDiff ⟨l, sm⟩ = scoreVal (totalScore ⟨l, sm⟩) :=
    scoreDiff_of_ne_nil hne
  refine ⟨?_, ?_, ?_, ?_⟩
  · rw [hsd]
    exact scoreVal_le_100 _
  · intro h6
    rw [hsd, hts]
    apply scoreVal_lt_100_of_exp_lt (by positivity)
    exact exp_removed_lt h6
  · intro h7
    rw [hsd, hts]
    apply scoreVal_eq_100_of_exp_ge (by positivity)
    exact exp_removed_ge h7
  · have := Real.exp_pos (-((totalScore ⟨l, sm⟩ : ℝ)) / 50)
    linarith

theorem C4_amended_removed_growth_witness :
    (List.replicate 8 (Change.mk "REMOVED_FIELD" "g" "number" "")
        ≠ ([] : List Change)) ∧
    scoreDiff
      ⟨List.replicate 8 (Change.mk "REMOVED_FIELD" "g" "number" ""), ⟨0, 8, 0⟩⟩
      = 100 := by
  refine ⟨by decide, ?_⟩
  have h := C4_amended_removed_growth
    (List.replicate 8 (Change.mk "REMOVED_FIELD" "g" "number" "")) ⟨0, 8, 0⟩
    (by decide) (by decide)
  exact h.2.2.1 (by decide)

/-- C5: for single-change reports the score strictly increases with severity
tier — added field (10) < compatible non-structural type change (26) <
incompatible non-structural type change (39) < structural type change (50) <
removed field (55). -/
theorem C5_severity_strictly_ordered
    (p₁ p₂ p₃ p₄ p₅ a₁ b₁ o₂ n₂ o₃ n₃ o₄ n₄ a₅ b₅ : String)
    (sm₁ sm₂ sm₃ sm₄ sm₅ : Summary)
    (h₂s : ¬((o₂ = "object" ∨ o₂ = "array") ∨ (n₂ = "object" ∨ n₂ = "array")))
    (h₂c : areTypesCompatible o₂ n₂ = true)
    (h₃s : ¬((o₃ = "object" ∨ o₃ = "array") ∨ (n₃ = "object" ∨ n₃ = "array")))
    (h₃c : areTypesCompatible o₃ n₃ = false)
    (h₄s : (o₄ = "object" ∨ o₄ = "array") ∨ (n₄ = "object" ∨ n₄ = "array")) :
    scoreDiff ⟨[Change.mk "ADDED_FIELD" p₁ a₁ b₁], sm₁⟩
      < scoreDiff ⟨[Change.mk "TYPE_CHANGED" p₂ o₂ n₂], sm₂⟩ ∧
    scoreDiff ⟨[Change.mk "TYPE_CHANGED" p₂ o₂ n₂], sm₂⟩
      < scoreDiff ⟨[Change.mk "TYPE_CHANGED" p₃ o₃ n₃], sm₃⟩ ∧
    scoreDiff ⟨[Change.mk "TYPE_CHANGED" p₃ o₃ n₃], sm₃⟩
      < scoreDiff ⟨[Change.mk "TYPE_CHANGED" p₄ o₄ n₄], sm₄⟩ ∧
    scoreDiff ⟨[Change.mk "TYPE_CHANGED" p₄ o₄ n₄], sm₄⟩
      < scoreDiff ⟨[Change.mk "REMOVED_FIELD" p₅ a₅ b₅], sm₅⟩ := by
  have e₁ : changePoints (Change.mk "ADDED_FIELD" p₁ a₁ b₁) = 5 := by
    unfold changePoints
    simp
  have e₂ : changePoints (Change.mk "TYPE_CHANGED" p₂ o₂ n₂) = 15 := by
    unfold changePoints
    simp [h₂s, h₂c]
  have e₃ : changePoints (Change.mk "TYPE_CHANGED" p₃ o₃ n₃) = 25 := by
    unfold changePoints
    simp [h₃s, h₃c]
  have e₄ : changePoints (Change.mk "TYPE_CHANGED" p₄ o₄ n₄) = 35 := by
    unfold changePoints
    simp [h₄s]
  have e₅ : changePoints (Change.mk "REMOVED_FIELD" p₅ a₅ b₅) = 40 := by
    unfold changePoints
    simp
  rw [scoreDiff_single, scoreDiff_single, scoreDiff_single, scoreDiff_single,
    scoreDiff_single, e₁, e₂, e₃, e₄, e₅]
  rw [show ((5 : ℕ) : ℝ) = 5 by norm_num,
    show ((15 : ℕ) : ℝ) = 15 by norm_num,
    show ((25 : ℕ) : ℝ) = 25 by norm_num,
    show ((35 : ℕ) : ℝ) = 35 by norm_num,
    show ((40 : ℕ) : ℝ) = 40 by norm_num,
    scoreVal_5, scoreVal_15, scoreVal_25, scoreVal_35, scoreVal_40]
  norm_num

theorem C5_severity_strictly_ordered_witness :
    (¬((("number" : String) = "object" ∨ ("number" : String) = "array") ∨
        (("string" : String) = "object" ∨ ("string" : String) = "array"))) ∧
    areTypesCompatible "number" "string" = true ∧
    areTypesCompatible "boolean" "number" = false ∧
    scoreDiff ⟨[Change.mk "ADDED_FIELD" "a" "" "string"], ⟨1, 0, 0⟩⟩
      < scoreDiff ⟨[Change.mk "TYPE_CHANGED" "b" "number" "string"], ⟨0, 0, 1⟩⟩ := by
  refine ⟨by decide, by decide, by decide, ?_⟩
  have h := C5_severity_strictly_ordered
    "a" "b" "c" "d" "e" "" "string" "number" "string" "boolean" "number"
    "string" "object" "boolean" ""
    ⟨1, 0, 0⟩ ⟨0, 0, 1⟩ ⟨0, 0, 1⟩ ⟨0, 0, 1⟩ ⟨0, 1, 0⟩
    (by decide) (by decide) (by decide) (by decide) (by decide)
  exact h.1

/-- C6: the compatibility predicate holds exactly for pairs involving
`"null"`, the string/number pair in either order, or identical types; all
other pairs are incompatible. -/
theorem C6_compatibility_characterization (a b : String) :
    areTypesCompatible a b = true ↔
      (a = "null" ∨ b = "null" ∨
        ((a = "string" ∧ b = "number") ∨ (a = "number" ∧ b = "string")) ∨
        a = b) := by
  rw [compat_eq_specCompat]
  unfold specTypesCompatible
  simp

/-! ## Hyperproperty and safety claims -/

/-- The data `scoreDiff` can observe about one change. -/
def changeTriple (c : Change) : String × String × String :=
  (c.kind, c.oldType, c.newType)

/-- Factoring of `changePoints` through `changeTriple`. -/
def triplePoints : String × String × String → Nat
  | (kind, oldType, newType) =>
      changePoints ⟨kind, "", oldType, newType⟩

lemma changePoints_eq_triplePoints (c : Change) :
    changePoints c = triplePoints (changeTriple c) := by
  cases c
  rfl

/-- C8: the score is determined solely by the multiset of
`(kind, oldType, newType)` triples — it never reads paths or the summary and
is invariant under permutation of the change list. -/
theorem C8_score_depends_only_on_triples (r₁ r₂ : DiffReport)
    (h : (r₁.changes.map changeTriple).Perm (r₂.changes.map changeTriple)) :
    scoreDiff r₁ = scoreDiff r₂ := by
  have hlen : r₁.changes.length = r₂.changes.length := by
    have := h.length_eq
    simpa using this
  have hsum : totalScore r₁ = totalScore r₂ := by
    unfold totalScore
    have h₁ : r₁.changes.map changePoints
        = (r₁.changes.map changeTriple).map triplePoints := by
      rw [List.map_map]
      exact List.map_congr_left (fun c _ => changePoints_eq_triplePoints c)
    have h₂ : r₂.changes.map changePoints
        = (r₂.changes.map changeTriple).map triplePoints := by
      rw [List.map_map]
      exact List.map_congr_left (fun c _ => changePoints_eq_triplePoints c)
    rw [h₁, h₂]
    exact (h.map triplePoints).sum_eq
  unfold scoreDiff
  rw [hlen, hsum]

theorem C8_score_depends_only_on_triples_witness :
    ((([Change.mk "REMOVED_FIELD" "user.id" "number" "",
        Change.mk "ADDED_FIELD" "tag" "" "string"]).map changeTriple).Perm
      (([Change.mk "ADDED_FIELD" "other.path" "" "string",
        Change.mk "REMOVED_FIELD" "x[3]" "number" ""]).map changeTriple)) ∧
    scoreDiff ⟨[Change.mk "REMOVED_FIELD" "user.id" "number" "",
        Change.mk "ADDED_FIELD" "tag" "" "string"], ⟨1, 1, 0⟩⟩ =
    scoreDiff ⟨[Change.mk "ADDED_FIELD" "other.path" "" "string",
        Change.mk "REMOVED_FIELD" "x[3]" "number" ""], ⟨5, 7, 9⟩⟩ := by
  have hperm : (([Change.mk "REMOVED_FIELD" "user.id" "number" "",
        Change.mk "ADDED_FIELD" "tag" "" "string"]).map changeTriple).Perm
      (([Change.mk "ADDED_FIELD" "other.path" "" "string",
        Change.mk "REMOVED_FIELD" "x[3]" "number" ""]).map changeTriple) := by
    unfold changeTriple
    simp only [List.map_cons, List.map_nil]
    exact List.Perm.swap _ _ _
  exact ⟨hperm, C8_score_depends_only_on_triples _ _ hperm⟩

lemma changePoints_ge_5 (c : Change)
    (h : c.kind = "REMOVED_FIELD" ∨ c.kind = "TYPE_CHANGED" ∨
      c.kind = "ADDED_FIELD") :
    5 ≤ changePoints c := by
  unfold changePoints
  rcases h with h | h | h <;> (rw [h]; simp)
  split_ifs <;> norm_num

/-- C9: every non-empty report built from the three documented change kinds
scores at least 10 (the single-added-field minimum); no score in `1..9` is
reachable. -/
theorem C9_nonempty_documented_score_ge_10 (r : DiffReport)
    (hne : r.changes ≠ [])
    (hall : ∀ c ∈ r.changes, c.kind = "REMOVED_FIELD" ∨
      c.kind = "TYPE_CHANGED" ∨ c.kind = "ADDED_FIELD") :
    10 ≤ scoreDiff r := by
  have hts : 5 ≤ totalScore r := by
    obtain ⟨c, rest, hcr⟩ := List.exists_cons_of_ne_nil hne
    have hc : 5 ≤ changePoints c :=
      changePoints_ge_5 c (hall c (by rw [hcr]; exact List.mem_cons_self c rest))
    unfold totalScore
    rw [hcr]
    simp only [List.map_cons, List.sum_cons]
    omega
  rw [scoreDiff_of_ne_nil hne]
  calc (10 : ℤ) = scoreVal 5 := scoreVal_5.symm
    _ ≤ scoreVal (totalScore r) := by
        apply scoreVal_mono
        exact_mod_cast hts

theorem C9_nonempty_documented_score_ge_10_witness :
    (([Change.mk "ADDED_FIELD" "name" "" "string"] : List Change) ≠ []) ∧
    10 ≤ scoreDiff ⟨[Change.mk "ADDED_FIELD" "name" "" "string"], ⟨1, 0, 0⟩⟩ :=
  ⟨by decide,
    C9_nonempty_documented_score_ge_10 _ (by decide) (by decide)⟩

lemma scoreVal_zero : scoreVal 0 = 0 := by
  apply scoreVal_eq_of_exp_bounds 0 le_rfl
  · rw [show (0 : ℝ) / 50 = 0 by norm_num, Real.exp_zero]
    norm_num
  · rw [show (0 : ℝ) / 50 = 0 by norm_num, Real.exp_zero]
    norm_num

/-- C10: a change whose `kind` is none of the three documented tags falls
through the scorer's `switch`, contributes 0 points, and appending any number
of such entries to a report never alters its score (even though they make the
change list non-empty). -/
theorem C10_unknown_kinds_inert (r : DiffReport) (extra : List Change)
    (h : ∀ c ∈ extra, c.kind ≠ "REMOVED_FIELD" ∧ c.kind ≠ "TYPE_CHANGED" ∧
      c.kind ≠ "ADDED_FIELD") :
    (∀ c ∈ extra, changePoints c = 0) ∧
    scoreDiff ⟨r.changes ++ extra, r.summary⟩ = scoreDiff r := by
  have hzero : ∀ c ∈ extra, changePoints c = 0 := by
    intro c hc
    obtain ⟨h1, h2, h3⟩ := h c hc
    unfold changePoints
    rw [if_neg h1, if_neg h2, if_neg h3]
  refine ⟨hzero, ?_⟩
  have hsum : (extra.map changePoints).sum = 0 := by
    rw [List.sum_eq_zero]
    intro x hx
    obtain ⟨c, hc, hcx⟩ := List.mem_map.mp hx
    rw [← hcx]
    exact hzero c hc
  have htotal : totalScore ⟨r.changes ++ extra, r.summary⟩ = totalScore r := by
    unfold totalScore
    simp only [List.map_append, List.sum_append, hsum]
    simp
  by_cases hnil : r.changes = []
  · by_cases hex : extra = []
    · simp [scoreDiff, hnil, hex]
    · rw [scoreDiff_of_ne_nil (by simp [hnil, hex]), htotal,
        scoreDiff_of_nil hnil]
      unfold totalScore
      rw [hnil]
      simpa using scoreVal_zero
  · rw [scoreDiff_of_ne_nil (by simp [hnil]), htotal,
      scoreDiff_of_ne_nil hnil]

theorem C10_unknown_kinds_inert_witness :
    (∀ c ∈ [Change.mk "RENAMED_FIELD" "a" "string" "string",
        Change.mk "MOVED_FIELD" "b" "" ""],
      c.kind ≠ "REMOVED_FIELD" ∧ c.kind ≠ "TYPE_CHANGED" ∧
        c.kind ≠ "ADDED_FIELD") ∧
    scoreDiff ⟨[Change.mk "REMOVED_FIELD" "flag" "boolean" ""] ++
        [Change.mk "RENAMED_FIELD" "a" "string" "string",
          Change.mk "MOVED_FIELD" "b" "" ""], ⟨0, 1, 0⟩⟩ =
    scoreDiff ⟨[Change.mk "REMOVED_FIELD" "flag" "boolean" ""], ⟨0, 1, 0⟩⟩ :=
  ⟨by decide,
    (C10_unknown_kinds_inert
      ⟨[Change.mk "REMOVED_FIELD" "flag" "boolean" ""], ⟨0, 1, 0⟩⟩
      [Change.mk "RENAMED_FIELD" "a" "string" "string",
        Change.mk "MOVED_FIELD" "b" "" ""] (by decide)).2⟩

/-! ## The diff engine, modelled from the spec

The repository snapshot does not contain `src/lib/diff.ts` (only importers of
`diffSchemas` and the `DiffReport` type), so the engine below is built from
the specification §3/§4.2. -/

/-- Modelled from the spec: the §3 JSON value model — `Null`, `Boolean`,
`Number`, `String`, `Array` (ordered sequence), `Object` (ordered key/value
mapping).  Numeric content is opaque to the engine (only its type label is
ever inspected), embedded as `ℚ`. -/
inductive Json where
  | null
  | bool (b : Bool)
  | num (q : ℚ)
  | str (s : String)
  | arr (items : List Json)
  | obj (fields : List (String × Json))

/-- Modelled from the spec: the §4.1 type classifier, mapping a runtime value
to one of the six type labels. -/
def classify : Json → String
  | .null => "null"
  | .bool _ => "boolean"
  | .num _ => "number"
  | .str _ => "string"
  | .arr _ => "array"
  | .obj _ => "object"

/-- First value bound to key `k` in an ordered field list. -/
def lookupJ : List (String × Json) → String → Option Json
  | [], _ => none
  | (k', v) :: rest, k => if k' = k then some v else lookupJ rest k

/-- Modelled from the spec: §3 path building — object keys joined with `.`,
the empty path denoting the root. -/
def joinKey (p k : String) : String :=
  if p = "" then k else p ++ "." ++ k

/-- Modelled from the spec: §3 path building — array index segments `[i]`. -/
def idxPath (p : String) (i : Nat) : String :=
  p ++ "[" ++ toString i ++ "]"

mutual
/-- Modelled from the spec: the §4.2 recursive walk.  A classified-type
mismatch emits one `TypeChanged` and stops; objects emit removals and
additions by key-set difference then recurse on common keys in old key
order; arrays recurse index-wise and model length differences as trailing
removes/adds; equal scalar types emit nothing. -/
def diffAux (path : String) (oldV newV : Json) : List Change :=
  if classify oldV ≠ classify newV then
    [⟨"TYPE_CHANGED", path, classify oldV, classify newV⟩]
  else
    match oldV, newV with
    | .obj fo, .obj fn =>
        ((fo.filter (fun q => (lookupJ fn q.1).isNone)).map
          (fun q => ⟨"REMOVED_FIELD", joinKey path q.1, classify q.2, ""⟩)) ++
        ((fn.filter (fun q => (lookupJ fo q.1).isNone)).map
          (fun q => ⟨"ADDED_FIELD", joinKey path q.1, "", classify q.2⟩)) ++
        diffCommon path fo fn
    | .arr xs, .arr ys => diffArrs path 0 xs ys
    | _, _ => []
termination_by (sizeOf oldV, sizeOf newV)

/-- Recursion over the old object's fields, comparing each key present in
both objects (spec §4.2, third object bullet). -/
def diffCommon (path : String) (fo fn : List (String × Json)) : List Change :=
  match fo with
  | [] => []
  | (k, vo) :: rest =>
      (match lookupJ fn k with
       | some vn => diffAux (joinKey path k) vo vn
       | none => []) ++ diffCommon path rest fn
termination_by (sizeOf fo, sizeOf fn)

/-- Index-wise array walk with trailing removes/adds (spec §4.2 array case). -/
def diffArrs (path : String) (i : Nat) (xs ys : List Json) : List Change :=
  match xs, ys with
  | [], [] => []
  | [], y :: ys' =>
      ⟨"ADDED_FIELD", idxPath path i, "", classify y⟩ :: diffArrs path (i + 1) [] ys'
  | x :: xs', [] =>
      ⟨"REMOVED_FIELD", idxPath path i, classify x, ""⟩ :: diffArrs path (i + 1) xs' []
  | x :: xs', y :: ys' =>
      diffAux (idxPath path i) x y ++ diffArrs path (i + 1) xs' ys'
termination_by (sizeOf xs, sizeOf ys)
end

/-- Modelled from the spec: `diffSchemas(old, new) -> DiffReport` — the walk
rooted at the empty path, with the `Summary` counts derived from the change
list (`risky` counting the `TypeChanged` entries). -/
def diffSchemas (oldV newV : Json) : DiffReport :=
  let cs := diffAux "" oldV newV
  ⟨cs, ⟨(cs.filter (fun c => c.kind = "ADDED_FIELD")).length,
        (cs.filter (fun c => c.kind = "REMOVED_FIELD")).length,
        (cs.filter (fun c => c.kind = "TYPE_CHANGED")).length⟩⟩

/-- True when no later binding in the field list repeats key `k` of an
earlier one. -/
def nodupKeys : List (String × Json) → Bool
  | [] => true
  | (k, _) :: rest => (lookupJ rest k).isNone && nodupKeys rest

mutual
/-- Modelled from the spec: a well-formed §3 JSON value — every object is a
genuine mapping, i.e. its keys are pairwise distinct (recursively). -/
def Json.WF : Json → Bool
  | .null => true
  | .bool _ => true
  | .num _ => true
  | .str _ => true
  | .arr xs => wfItems xs
  | .obj fs => nodupKeys fs && wfFields fs
termination_by x => sizeOf x

/-- All array items well-formed. -/
def wfItems : List Json → Bool
  | [] => true
  | x :: xs => Json.WF x && wfItems xs
termination_by xs => sizeOf xs

/-- All object field values well-formed. -/
def wfFields : List (String × Json) → Bool
  | [] => true
  | (_, v) :: rest => Json.WF v && wfFields rest
termination_by fs => sizeOf fs
end

/-! ### Identity of the diff on equal inputs -/

lemma lookupJ_isSome_of_mem {fs : List (String × Json)} {k : String} {v : Json}
    (h : (k, v) ∈ fs) : (lookupJ fs k).isSome = true := by
  induction fs with
  | nil => simp at h
  | cons q rest ih =>
      obtain ⟨k', v'⟩ := q
      rcases List.mem_cons.mp h with h | h
      · rw [lookupJ, if_pos (by injection h with h1 _; exact h1.symm)]
        rfl
      · rw [lookupJ]
        split_ifs
        · rfl
        · exact ih h

lemma lookupJ_eq_of_mem_nodup {fs : List (String × Json)} {k : String}
    {v : Json} (hnd : nodupKeys fs = true) (h : (k, v) ∈ fs) :
    lookupJ fs k = some v := by
  induction fs with
  | nil => simp at h
  | cons q rest ih =>
      obtain ⟨k', v'⟩ := q
      rw [nodupKeys, Bool.and_eq_true] at hnd
      rcases List.mem_cons.mp h with h | h
      · injection h with h1 h2
        rw [lookupJ, if_pos h1.symm, h2]
      · rw [lookupJ]
        split_ifs with hk
        · exfalso
          have hsome := lookupJ_isSome_of_mem h
          rw [← hk] at hsome
          rw [Option.isNone_iff_eq_none] at hnd
          rw [hnd.1] at hsome
          simp at hsome
        · exact ih hnd.2 h

lemma wfFields_mem {fs : List (String × Json)} {k : String} {v : Json}
    (hwf : wfFields fs = true) (h : (k, v) ∈ fs) : Json.WF v = true := by
  induction fs with
  | nil => simp at h
  | cons q rest ih =>
      obtain ⟨k', v'⟩ := q
      rw [wfFields, Bool.and_eq_true] at hwf
      rcases List.mem_cons.mp h with h | h
      · injection h with _ h2
        rw [← h2] at hwf
        exact hwf.1
      · exact ih hwf.2 h

lemma wfItems_mem {xs : List Json} {x : Json}
    (hwf : wfItems xs = true) (h : x ∈ xs) : Json.WF x = true := by
  induction xs with
  | nil => simp at h
  | cons y rest ih =>
      rw [wfItems, Bool.and_eq_true] at hwf
      rcases List.mem_cons.mp h with h | h
      · rw [h]
        exact hwf.1
      · exact ih hwf.2 h

lemma sizeOf_mem_fields {fs : List (String × Json)} {k : String} {v : Json}
    (h : (k, v) ∈ fs) : sizeOf v < sizeOf (Json.obj fs) := by
  have h1 : sizeOf (k, v) < sizeOf fs := List.sizeOf_lt_of_mem h
  have h2 : sizeOf (Json.obj fs) = 1 + sizeOf fs := by simp
  have h3 : sizeOf (k, v) = 1 + sizeOf k + sizeOf v := by simp
  omega

lemma sizeOf_mem_items {xs : List Json} {x : Json} (h : x ∈ xs) :
    sizeOf x < sizeOf (Json.arr xs) := by
  have h1 : sizeOf x < sizeOf xs := List.sizeOf_lt_of_mem h
  have h2 : sizeOf (Json.arr xs) = 1 + sizeOf xs := by simp
  omega

lemma diffCommon_self_aux (path : String) (g f : List (String × Json))
    (hsub : ∀ k v, (k, v) ∈ g → lookupJ f k = some v)
    (hIH : ∀ v, (∃ k, (k, v) ∈ g) → ∀ p, diffAux p v v = []) :
    diffCommon path g f = [] := by
  induction g with
  | nil => rw [diffCommon]
  | cons q rest ih =>
      obtain ⟨k, vo⟩ := q
      rw [diffCommon]
      have hl : lookupJ f k = some vo :=
        hsub k vo (List.mem_cons_self _ _)
      rw [hl]
      have hd : diffAux (joinKey path k) vo vo = [] :=
        hIH vo ⟨k, List.mem_cons_self _ _⟩ _
      change diffAux (joinKey path k) vo vo ++ diffCommon path rest f = []
      rw [hd]
      rw [List.nil_append]
      exact ih (fun k' v' h' => hsub k' v' (List.mem_cons_of_mem _ h'))
        (fun v ⟨k', h'⟩ p => hIH v ⟨k', List.mem_cons_of_mem _ h'⟩ p)

lemma diffArrs_self_aux (path : String) (xs : List Json)
    (hIH : ∀ x ∈ xs, ∀ p, diffAux p x x = []) :
    ∀ i, diffArrs path i xs xs = [] := by
  induction xs with
  | nil =>
      intro i
      rw [diffArrs]
  | cons x rest ih =>
      intro i
      rw [diffArrs]
      rw [hIH x (List.mem_cons_self _ _) _]
      rw [List.nil_append]
      exact ih (fun y hy p => hIH y (List.mem_cons_of_mem _ hy) p) (i + 1)

lemma diffAux_self_aux :
    ∀ (n : ℕ) (x : Json), sizeOf x ≤ n → Json.WF x = true →
      ∀ p, diffAux p x x = [] := by
  intro n
  induction n with
  | zero =>
      intro x hx
      exfalso
      cases x <;> simp at hx
  | succ n ih =>
      intro x hx hwf p
      cases x with
      | null => simp [diffAux, classify]
      | bool b => simp [diffAux, classify]
      | num q => simp [diffAux, classify]
      | str s => simp [diffAux, classify]
      | arr xs =>
          rw [Json.WF] at hwf
          have harr : diffAux p (.arr xs) (.arr xs) = diffArrs p 0 xs xs := by
            simp [diffAux, classify]
          rw [harr]
          apply diffArrs_self_aux
          intro y hy p'
          apply ih y _ (wfItems_mem hwf hy) p'
          have := sizeOf_mem_items hy
          omega
      | obj fs =>
          rw [Json.WF, Bool.and_eq_true] at hwf
          have hobj : diffAux p (.obj fs) (.obj fs) =
              ((fs.filter (fun q => (lookupJ fs q.1).isNone)).map
                (fun q => ⟨"REMOVED_FIELD", joinKey p q.1, classify q.2, ""⟩)) ++
              ((fs.filter (fun q => (lookupJ fs q.1).isNone)).map
                (fun q => ⟨"ADDED_FIELD", joinKey p q.1, "", classify q.2⟩)) ++
              diffCommon p fs fs := by
            simp [diffAux, classify]
          rw [hobj]
          have hrem : fs.filter (fun q => (lookupJ fs q.1).isNone) = [] := by
            rw [List.filter_eq_nil_iff]
            intro q hq
            obtain ⟨k, v⟩ := q
            have hs := lookupJ_isSome_of_mem hq
            cases hl : lookupJ fs (k, v).1 with
            | none => rw [hl] at hs; simp at hs
            | some w => simp [hl]
          rw [hrem]
          simp only [List.map_nil, List.nil_append]
          apply diffCommon_self_aux
          · intro k v hkv
            exact lookupJ_eq_of_mem_nodup hwf.1 hkv
          · intro v hv p'
            obtain ⟨k, hkv⟩ := hv
            apply ih v _ (wfFields_mem hwf.2 hkv) p'
            have := sizeOf_mem_fields hkv
            omega

/-- C7: Identity — diffing any well-formed JSON value against itself yields a
report with an empty change list, whose score is 0. -/
theorem C7_diff_identity (x : Json) (hwf : Json.WF x = true) :
    (diffSchemas x x).changes = [] ∧ scoreDiff (diffSchemas x x) = 0 := by
  have h : diffAux "" x x = [] := diffAux_self_aux (sizeOf x) x le_rfl hwf ""
  have hch : (diffSchemas x x).changes = [] := by
    unfold diffSchemas
    simpa using h
  exact ⟨hch, scoreDiff_of_nil hch⟩

/-- A sample nested JSON document for evaluating the diff engine. -/
def sampleJson : Json :=
  .obj [("id", .num 1),
        ("tags", .arr [.str "a", .null]),
        ("meta", .obj [("active", .bool true)])]

theorem C7_diff_identity_witness :
    Json.WF sampleJson = true ∧
    (diffSchemas sampleJson sampleJson).changes = [] ∧
    scoreDiff (diffSchemas sampleJson sampleJson) = 0 := by
  have hwf : Json.WF sampleJson = true := by
    simp [sampleJson, Json.WF, wfItems, wfFields, nodupKeys, lookupJ]
  exact ⟨hwf, (C7_diff_identity sampleJson hwf).1,
    (C7_diff_identity sampleJson hwf).2⟩

end MirrorAPI
